import Mathlib

/-!
Verification of the AMB <-> Nostr transcoding engine.

This file gives a shallow embedding of the two pure converter functions of
the repository: `ambToNostr` (flatten, from `src/converters/ambToNostr.ts`)
and `nostrToAmb` (unflatten, with its helpers `unflattenTags`,
`reconstructProperty` and `reconstructNestedObjects`).

Modelling conventions:
- JavaScript strings are Lean `String`; `toLowerCase` is modelled by an
  ASCII character map (`jsToLower`), `split`, `startsWith`, `includes` and
  `join` are modelled by structurally recursive character-list functions so
  that every definition evaluates by kernel reduction.
- JavaScript dynamic values reconstructed by the unflattener are modelled by
  the inductive `JVal` (string / array / object); objects are association
  lists in insertion order, property writes keep the original position of an
  existing key, as JavaScript objects do.
- Truthiness: the empty string is the only falsy value that occurs in the
  converter's data flow; objects and arrays (even empty ones) are truthy.
- Writing a property on a string primitive raises a TypeError in a strict
  mode module; the unflattener models this with `Except Unit`, and
  `nostrToAmb` wraps the failure as `CONVERSION_FAILED`, as the source's
  try/catch does.  Reading a property of a string primitive yields its own
  properties only for "length" and canonical numeric indices (`strHasOwn`).
- The wall clock `Date.now()` is passed in as an explicit `now : Nat`
  parameter (unix seconds).
- The event `tags` field is a list by type, so the source's "tags is not an
  array" guard has no inhabitant in the embedding; the `kind` guard
  `!event.kind || event.kind !== 30142` collapses to `kind ≠ 30142` since
  kind 0 is also different from 30142.
-/

namespace AmbNostr

/-- ASCII lower-casing of a character list, modelling `String.toLowerCase`. -/
def jsToLower (s : String) : String :=
  String.mk (s.data.map Char.toLower)

/-- Splitting a character list at a separator, modelling `String.split`. -/
def chSplit (sep : Char) : List Char → List (List Char)
  | [] => [[]]
  | c :: cs =>
    let r := chSplit sep cs
    if c = sep then [] :: r
    else
      match r with
      | h :: t => (c :: h) :: t
      | [] => [[c]]

/-- Model of JavaScript `key.split(':')`. -/
def jsSplit (sep : Char) (s : String) : List String :=
  (chSplit sep s.data).map (fun l => String.mk l)

/-- Character-list computation behind `jsStartsWith`. -/
def chIsPre : List Char → List Char → Bool
  | [], _ => true
  | _ :: _, [] => false
  | p :: ps, c :: cs => p = c && chIsPre ps cs

/-- Model of JavaScript `s.startsWith(p)`. -/
def jsStartsWith (s p : String) : Bool :=
  chIsPre p.data s.data

/-- Membership of a character in a character list. -/
def chMem (c : Char) : List Char → Bool
  | [] => false
  | x :: xs => x = c || chMem c xs

/-- Model of JavaScript `s.includes(':')` for a single character. -/
def jsIncludes (s : String) (c : Char) : Bool :=
  chMem c s.data

/-- Model of JavaScript `array.join(sep)`. -/
def jsJoin (sep : String) : List String → String
  | [] => ""
  | [s] => s
  | s :: rest => s ++ sep ++ jsJoin sep rest

/-- Numeric value of an ASCII digit. -/
def digitVal (c : Char) : Option Nat :=
  if '0' ≤ c ∧ c ≤ '9' then some (c.toNat - '0'.toNat) else none

/-- Accumulating digit parser for canonical numeric property keys. -/
def chNumVal : List Char → Nat → Option Nat
  | [], acc => some acc
  | c :: cs, acc =>
    match digitVal c with
    | some d => chNumVal cs (acc * 10 + d)
    | none => none

/-- Canonical numeric index of a JavaScript property key: the string is a
digit sequence with no leading zero (except "0" itself). -/
def canonicalIndex (p : String) : Option Nat :=
  match p.data with
  | [] => none
  | ['0'] => some 0
  | c :: cs =>
    if c = '0' then none
    else
      match digitVal c with
      | some d => chNumVal cs d
      | none => none

/-- Dynamic JSON-like value produced by the unflattener. -/
inductive JVal where
  | str : String → JVal
  | arr : List JVal → JVal
  | obj : List (String × JVal) → JVal
deriving Repr

/-- JavaScript object: association list of properties in insertion order. -/
abbrev JObj := List (String × JVal)

/-- Property read, modelling `o[k]` (`none` is `undefined`). -/
def objGet (o : JObj) (k : String) : Option JVal :=
  match o with
  | [] => none
  | (k1, v) :: rest => if k1 = k then some v else objGet rest k

/-- Property write, modelling `o[k] = v`: an existing key keeps its
position, a new key is appended. -/
def objSet (o : JObj) (k : String) (v : JVal) : JObj :=
  match o with
  | [] => [(k, v)]
  | (k1, v1) :: rest => if k1 = k then (k1, v) :: rest else (k1, v1) :: objSet rest k v

/-- JavaScript truthiness of the dynamic values that occur in the
converter: only the empty string is falsy. -/
def jsTruthy : JVal → Bool
  | .str s => s != ""
  | .arr _ => true
  | .obj _ => true

/-- Truthiness of a possibly-undefined property. -/
def fieldTruthy (o : JObj) (k : String) : Bool :=
  match objGet o k with
  | some v => jsTruthy v
  | none => false

/-- Organization entity of the AMB data model (`types/amb.ts`). -/
structure Organization where
  type : String := "Organization"
  name : String
  id : Option String := none
deriving Repr, DecidableEq

/-- Person entity of the AMB data model (`types/amb.ts`). -/
structure Person where
  type : String := "Person"
  name : String
  id : Option String := none
  honorificPrefix : Option String := none
  affiliation : Option Organization := none
deriving Repr, DecidableEq

/-- Polymorphic agent (Person | Organization). -/
inductive Agent where
  | person : Person → Agent
  | org : Organization → Agent
deriving Repr, DecidableEq

/-- Concept of the AMB data model: id, optional type tag and optional
localized label map (`prefLabel` entries in insertion order). -/
structure Concept where
  id : String := ""
  type : Option String := none
  prefLabel : Option (List (String × String)) := none
deriving Repr, DecidableEq

/-- License information. -/
structure License where
  id : String
deriving Repr, DecidableEq

/-- Lightweight reference to another learning resource. -/
structure ResourceRef where
  id : String
  name : Option String := none
  type : Option (List String) := none
deriving Repr, DecidableEq

/-- AMB learning resource (`AmbLearningResourceBase` of `types/amb.ts`),
restricted to the fields the flattener reads. -/
structure AmbResource where
  id : String
  type : List String
  name : String
  description : Option String := none
  keywords : Option (List String) := none
  inLanguage : Option (List String) := none
  creator : Option (List Agent) := none
  publisher : Option (List Agent) := none
  license : Option License := none
  isAccessibleForFree : Option Bool := none
  conditionsOfAccess : Option Concept := none
  about : Option (List Concept) := none
  educationalLevel : Option (List Concept) := none
  audience : Option (List Concept) := none
  learningResourceType : Option (List Concept) := none
  datePublished : Option String := none
  dateCreated : Option String := none
  image : Option String := none
  hasPart : Option (List ResourceRef) := none
  isPartOf : Option (List ResourceRef) := none
  isBasedOn : Option (List ResourceRef) := none
deriving Repr, DecidableEq

/-- Conversion options (`types/index.ts`). -/
structure ConversionOptions where
  pubkey : Option String := none
  includeRelationships : Option Bool := none
  timestamp : Option Nat := none
  deterministicIds : Option Bool := none
  relayHints : Option (List String) := none
deriving Repr, DecidableEq

/-- Error codes of `ConversionErrorCode`. -/
inductive ErrCode where
  | INVALID_INPUT
  | MISSING_REQUIRED_FIELD
  | INVALID_FORMAT
  | CONVERSION_FAILED
  | VALIDATION_FAILED
deriving Repr, DecidableEq

/-- Structured conversion error (message and code). -/
structure ConvError where
  message : String
  code : ErrCode
deriving Repr, DecidableEq

/-- Result of a conversion: success with data and warnings, or an error. -/
inductive ConvResult (α : Type) where
  | ok : α → List String → ConvResult α
  | err : ConvError → ConvResult α
deriving Repr, DecidableEq

/-- Nostr event as produced and consumed by the converters. -/
structure NostrEvent where
  pubkey : String
  created_at : Nat
  kind : Nat
  tags : List (List String)
  content : String
deriving Repr, DecidableEq

/-- Default pubkey constant of the flattener. -/
def DEFAULT_PUBKEY : String :=
  "0000000000000000000000000000000000000000000000000000000000000000"

/-- Resolution of `options.pubkey || DEFAULT_PUBKEY` (empty string is
falsy). -/
def resolvePubkey (o : ConversionOptions) : String :=
  match o.pubkey with
  | some p => if p = "" then DEFAULT_PUBKEY else p
  | none => DEFAULT_PUBKEY

/-- Resolution of `options.timestamp || Math.floor(Date.now() / 1000)`:
the number 0 is falsy, so a supplied timestamp of 0 falls back to the
wall clock. -/
def resolveTimestamp (o : ConversionOptions) (now : Nat) : Nat :=
  match o.timestamp with
  | some t => if t = 0 then now else t
  | none => now

/-- Name extraction from Person or Organization (`getPersonOrOrgName`):
a truthy honorific prefix is prepended with a space. -/
def getPersonOrOrgName : Agent → String
  | .person ⟨_, nm, _, some hp, _⟩ => if hp ≠ "" then hp ++ " " ++ nm else nm
  | .person ⟨_, nm, _, none, _⟩ => nm
  | .org o => Organization.name o

/-- Discriminant of an agent (`creator.type`). -/
def agentType : Agent → String
  | .person ⟨ty, _, _, _, _⟩ => ty
  | .org ⟨ty, _, _⟩ => ty

/-- Optional identifier of an agent (`'id' in creator && creator.id`). -/
def agentId : Agent → Option String
  | .person ⟨_, _, i, _, _⟩ => i
  | .org ⟨_, _, i⟩ => i

/-- Tag for an optional scalar field, emitted only when truthy. -/
def optStrTags (key : String) (o : Option String) : List (List String) :=
  match o with
  | some s => if s ≠ "" then [[key, s]] else []
  | none => []

/-- Tags of an optional list field guarded by `field && field.length > 0`. -/
def listFlat {α : Type} (o : Option (List α)) (f : α → List (List String)) :
    List (List String) :=
  match o with
  | some l => if l.isEmpty then [] else (l.map f).flatten
  | none => []

/-- Tags of a creator's affiliation block. -/
def affiliationTags (aff : Organization) : List (List String) :=
  (if Organization.name aff ≠ "" then
     [["creator:affiliation:name", Organization.name aff]] else [])
  ++ (if Organization.type aff ≠ "" then
        [["creator:affiliation:type", Organization.type aff]] else [])
  ++ (match Organization.id aff with
      | some i => if i ≠ "" then [["creator:affiliation:id", i]] else []
      | none => [])

/-- Tags of one creator entry (name, type, then conditional id, honorific
prefix and affiliation sub-fields). -/
def creatorTags (c : Agent) : List (List String) :=
  [["creator:name", getPersonOrOrgName c], ["creator:type", agentType c]]
  ++ (match agentId c with
      | some i => if i ≠ "" then [["creator:id", i]] else []
      | none => [])
  ++ (match c with
      | .person ⟨_, _, _, hp, aff⟩ =>
        (match hp with
         | some h => if h ≠ "" then [["creator:honorificPrefix", h]] else []
         | none => [])
        ++ (match aff with
            | some a => affiliationTags a
            | none => [])
      | .org _ => [])

/-- Tags of one publisher entry (name, type, conditional id). -/
def publisherTags (c : Agent) : List (List String) :=
  [["publisher:name", getPersonOrOrgName c], ["publisher:type", agentType c]]
  ++ (match agentId c with
      | some i => if i ≠ "" then [["publisher:id", i]] else []
      | none => [])

/-- Tags of one Concept under a base key: id, one prefLabel tag per
language entry, then type, each only when truthy. -/
def conceptTags (base : String) (c : Concept) : List (List String) :=
  (if Concept.id c ≠ "" then [[base ++ ":id", Concept.id c]] else [])
  ++ (match Concept.prefLabel c with
      | some pl => pl.map (fun q => [base ++ ":prefLabel:" ++ q.1, q.2])
      | none => [])
  ++ (match Concept.type c with
      | some t => if t ≠ "" then [[base ++ ":type", t]] else []
      | none => [])

/-- Tags of one relationship reference: id, optional name, and (for
hasPart / isPartOf) one type tag per entry. -/
def refTags (base : String) (withTypes : Bool) (ref : ResourceRef) :
    List (List String) :=
  [[base ++ ":id", ResourceRef.id ref]]
  ++ (match ResourceRef.name ref with
      | some n => if n ≠ "" then [[base ++ ":name", n]] else []
      | none => [])
  ++ (if withTypes then
        match ResourceRef.type ref with
        | some ts => ts.map (fun t => [base ++ ":type", t])
        | none => []
      else [])

/-- Tag list emitted by the flattener, in the fixed source order. -/
def buildTags (ambResource : AmbResource) (options : ConversionOptions) :
    List (List String) :=
  [["d", ambResource.id]]
      ++ ambResource.type.map (fun t => ["type", t])
      ++ [["name", ambResource.name]]
      ++ optStrTags "description" ambResource.description
      ++ (match ambResource.keywords with
          | some ks =>
            if ks.isEmpty then [] else ks.map (fun k => ["t", jsToLower k])
          | none => [])
      ++ (match ambResource.inLanguage with
          | some ls =>
            if ls.isEmpty then [] else ls.map (fun l => ["inLanguage", l])
          | none => [])
      ++ listFlat ambResource.creator creatorTags
      ++ listFlat ambResource.publisher publisherTags
      ++ (match ambResource.license with
          | some lic => if License.id lic ≠ "" then [["license:id", License.id lic]] else []
          | none => [])
      ++ (match ambResource.isAccessibleForFree with
          | some b => [["isAccessibleForFree", if b then "true" else "false"]]
          | none => [])
      ++ (match ambResource.conditionsOfAccess with
          | some c => conceptTags "conditionsOfAccess" c
          | none => [])
      ++ listFlat ambResource.about (conceptTags "about")
      ++ listFlat ambResource.educationalLevel (conceptTags "educationalLevel")
      ++ listFlat ambResource.audience (conceptTags "audience")
      ++ listFlat ambResource.learningResourceType (conceptTags "learningResourceType")
      ++ optStrTags "datePublished" ambResource.datePublished
      ++ optStrTags "dateCreated" ambResource.dateCreated
      ++ optStrTags "image" ambResource.image
      ++ (match options.relayHints with
          | some rs => if rs.isEmpty then [] else rs.map (fun r => ["r", r])
          | none => [])
      ++ (if options.includeRelationships ≠ some false then
            listFlat ambResource.hasPart (refTags "hasPart" true)
            ++ listFlat ambResource.isPartOf (refTags "isPartOf" true)
            ++ listFlat ambResource.isBasedOn (refTags "isBasedOn" false)
          else [])

/-- Flattener `ambToNostr`: validation of id and name, then the fixed tag
emission of `buildTags`, producing a kind-30142 event with empty
content. -/
def ambToNostr (ambResource : AmbResource) (options : ConversionOptions)
    (now : Nat) : ConvResult NostrEvent :=
  if ambResource.id = "" then
    .err { message := "AMB resource must have an id", code := .MISSING_REQUIRED_FIELD }
  else if ambResource.name = "" then
    .err { message := "AMB resource must have a name", code := .MISSING_REQUIRED_FIELD }
  else
    let pubkey := resolvePubkey options
    let warnings :=
      if pubkey = DEFAULT_PUBKEY then
        ["Using default pubkey - should provide a real pubkey in production"]
      else []
    .ok { pubkey := pubkey, created_at := resolveTimestamp options now,
          kind := 30142, tags := buildTags ambResource options, content := "" } warnings

/-- Tag entry collected for one base-key group (`{ key, values }` of the
source's `relatedTags`). -/
structure RTag where
  key : String
  values : List String
deriving Repr, DecidableEq

/-- Target of the nested-path navigation: either an object inside the
current accumulator, or a string primitive that an earlier tag wrote. -/
inductive Tgt where
  | obj : JObj → Tgt
  | prim : String → Tgt
deriving Repr

/-- Own-property test of a string primitive: "length" and canonical
numeric indices below the length. -/
def strHasOwn (s : String) (k : String) : Bool :=
  k == "length" ||
    (match canonicalIndex k with
     | some n => decide (n < s.data.length)
     | none => false)

/-- Navigation continued from a string primitive.  An index step reads the
single character; any other step either writes a fresh object onto the
primitive or descends into its "length" number, and every such
continuation ends in a strict-mode TypeError, modelled as an error. -/
def navString (s : String) : List String → Except Unit Tgt
  | [] => .ok (.prim s)
  | p :: ps =>
    match canonicalIndex p with
    | some n =>
      match s.data.get? n with
      | some c => navString (String.mk [c]) ps
      | none => .error ()
    | none => .error ()

/-- Navigation `if (!target[part]) target[part] = {}; target = target[part]`
along the intermediate path segments: returns the mutated object together
with the final target.  A falsy value (absent or empty string) is replaced
by a fresh object; descending into an array never occurs in the
reconstruction data flow and is modelled as an error. -/
def navGet : JObj → List String → Except Unit (JObj × Tgt)
  | o, [] => .ok (o, .obj o)
  | o, p :: ps =>
    match objGet o p with
    | some (.obj s) =>
      match navGet s ps with
      | .ok (s1, t) => .ok (objSet o p (.obj s1), t)
      | .error e => .error e
    | some (.str s) =>
      if s = "" then
        match navGet [] ps with
        | .ok (s1, t) => .ok (objSet o p (.obj s1), t)
        | .error e => .error e
      else
        match navString s ps with
        | .ok t => .ok (o, t)
        | .error e => .error e
    | some (.arr _) => .error ()
    | none =>
      match navGet [] ps with
      | .ok (s1, t) => .ok (objSet o p (.obj s1), t)
      | .error e => .error e

/-- Leaf write `target[finalKey] = v` reflected onto the accumulator root:
the path already exists as objects after `navGet`. -/
def setAtPath : JObj → List String → String → JVal → JObj
  | o, [], k, v => objSet o k v
  | o, p :: ps, k, v =>
    match objGet o p with
    | some (.obj s) => objSet o p (.obj (setAtPath s ps k v))
    | _ => objSet o p (.obj (setAtPath [] ps k v))

/-- Own-property test of the navigation target (`target.hasOwnProperty`). -/
def tgtHasKey : Tgt → String → Bool
  | .obj o, k => (objGet o k).isSome
  | .prim s, k => strHasOwn s k

/-- Truthiness of a target property (`target.prefLabel` in the skip
condition); a string primitive has no truthy named property here. -/
def tgtFieldTruthy : Tgt → String → Bool
  | .obj o, k => fieldTruthy o k
  | .prim _, _ => false

/-- Search for the sibling `...:inLanguage` tag within one position before
or after the current index (`idx2 > currentIndex - 2 && idx2 <
currentIndex + 2`); `find` returns the first match in array order. -/
def findLangTag (all : List RTag) (idx : Nat) (langKey : String) : Option RTag :=
  (List.find? (fun q => q.2.key == langKey && decide (idx < q.1 + 2) &&
      decide (q.1 < idx + 2)) all.enum).map (fun q => q.2)

/-- One iteration of the reconstruction loop of
`reconstructNestedObjects`: skip falsy leaves, navigate the intermediate
segments, detect an object boundary (id reappearance or property
collision), then write the leaf with the prefLabel / inLanguage special
cases. -/
def stepTag (all : List RTag) (idx : Nat) (st : List JObj × JObj)
    (tag : RTag) : Except Unit (List JObj × JObj) :=
  let objects := st.1
  let cur := st.2
  let parts := jsSplit ':' tag.key
  let finalKey := parts.getLastD ""
  let value := tag.values.headD ""
  if finalKey = "" ∨ value = "" then .ok st
  else
    let mid := ((parts.drop 1).dropLast).filter (fun p => p ≠ "")
    match navGet cur mid with
    | .error e => .error e
    | .ok (cur1, tgt) =>
      let boundary : Bool :=
        if cur1.isEmpty then false
        else if finalKey == "id" && tgtHasKey tgt "id" then true
        else tgtHasKey tgt finalKey
      let next : Except Unit (List JObj × JObj × Tgt) :=
        if boundary then
          match navGet [] mid with
          | .ok (cur2, tgt2) => .ok (objects ++ [cur1], cur2, tgt2)
          | .error e => .error e
        else .ok (objects, cur1, tgt)
      match next with
      | .error e => .error e
      | .ok (objects1, cur2, tgt2) =>
        if finalKey = "prefLabel" then
          let langKey := jsJoin ":" (parts.dropLast ++ ["inLanguage"])
          let v : JVal :=
            match findLangTag all idx langKey with
            | some lt =>
              let lang := (RTag.values lt).headD ""
              if lang ≠ "" then .obj [(lang, .str value)] else .str value
            | none => .str value
          match tgt2 with
          | .prim _ => .error ()
          | .obj _ => .ok (objects1, setAtPath cur2 mid finalKey v)
        else if finalKey = "inLanguage" ∧ tgtFieldTruthy tgt2 "prefLabel" then
          .ok (objects1, cur2)
        else
          match tgt2 with
          | .prim _ => .error ()
          | .obj _ => .ok (objects1, setAtPath cur2 mid finalKey (.str value))

/-- Reconstruction loop over the collected tags, carrying the running
index used by the sibling-window search. -/
def reconLoop (all : List RTag) : Nat → List RTag → (List JObj × JObj) →
    Except Unit (List JObj × JObj)
  | _, [], st => .ok st
  | i, t :: ts, st =>
    match stepTag all i st t with
    | .error e => .error e
    | .ok st1 => reconLoop all (i + 1) ts st1

/-- Nested-object reconstruction (`reconstructNestedObjects`): run the
loop, append a non-empty trailing accumulator, and collapse a single
object to a bare object (a list otherwise). -/
def reconstructNestedObjects (tags : List RTag) : Except Unit JVal :=
  match reconLoop tags 0 tags ([], []) with
  | .error e => .error e
  | .ok (objects, cur) =>
    let objects1 := if cur.isEmpty then objects else objects ++ [cur]
    .ok (match objects1 with
         | [o] => .obj o
         | _ => .arr (objects1.map JVal.obj))

/-- Property reconstruction (`reconstructProperty`): flat tags give a
scalar (single tag) or a list of first values; any colon key delegates to
the nested reconstruction. -/
def reconstructProperty (baseKey : String) (tags : List RTag) :
    Except Unit JVal :=
  if tags.any (fun t => jsIncludes t.key ':') then reconstructNestedObjects tags
  else
    match tags with
    | [t] => .ok (.str (t.values.headD ""))
    | _ => .ok (.arr (tags.map (fun t => .str (t.values.headD ""))))

/-- Classification of one tag for a base-key group: reserved `d` and `t`
keys and malformed tags are dropped, a tag is collected when its key is
the group key or starts with the base key and a colon. -/
def relClassify (key baseKey : String) (tag : List String) : Option RTag :=
  if tag.length < 2 then none
  else
    let tagKey := tag.headD ""
    if tagKey = "" then none
    else if tagKey = "d" ∨ tagKey = "t" then none
    else if tagKey = key ∨ jsStartsWith tagKey (baseKey ++ ":") then
      some ⟨tagKey, tag.drop 1⟩
    else none

/-- Collection of every tag of a base-key group from the original ordered
tag list, excluding the reserved `d` and `t` keys. -/
def relatedOf (tags : List (List String)) (key baseKey : String) : List RTag :=
  tags.filterMap (relClassify key baseKey)

/-- Fields the AMB schema requires to be arrays; a bare reconstruction
result is coerced to a one-element list for them. -/
def arrayFields : List String :=
  ["type", "inLanguage", "about", "creator", "contributor",
   "learningResourceType", "audience", "publisher", "funder"]

/-- Always-array coercion of a reconstructed value. -/
def coerceArray (baseKey : String) (v : JVal) : JVal :=
  if baseKey ∈ arrayFields then
    match v with
    | .arr l => .arr l
    | v1 => .arr [v1]
  else v

/-- Second phase of `unflattenTags`: iterate the grouped keys in
first-seen order, skip the ones already consumed by an earlier base-key
pass, reconstruct each base key from its related tags and assign the
(possibly array-coerced) value. -/
def processGroups (tags : List (List String)) :
    List String → List String → JObj → Except Unit JObj
  | [], _, res => .ok res
  | key :: rest, processed, res =>
    if key ∈ processed then processGroups tags rest processed res
    else
      let baseKey := ((jsSplit ':' key).headD "")
      if baseKey = "" then processGroups tags rest processed res
      else
        let related := relatedOf tags key baseKey
        let processed1 := processed ++ related.map RTag.key
        match reconstructProperty baseKey related with
        | .error e => .error e
        | .ok v =>
          processGroups tags rest processed1 (objSet res baseKey (coerceArray baseKey v))

/-- Initial result of the unflattener: the fixed AMB context plus the
language object. -/
def initResult (defaultLanguage : String) : JObj :=
  [("@context",
    .arr [.str "https://w3id.org/kim/amb/context.jsonld",
          .obj [("@language", .str defaultLanguage)]])]

/-- Registration of a group key in the first-seen-order key list,
modelling `if (!tagGroups.has(key)) tagGroups.set(key, [])`. -/
def addKey (key : String) (gks : List String) : List String :=
  if key ∈ gks then gks else gks ++ [key]

/-- First pass of `unflattenTags` over one tag: malformed tags are
skipped, a `d` tag with a truthy value assigns `id` (so a later duplicate
overwrites an earlier one), a `t` tag with a truthy value appends a
keyword, everything else registers its exact key as a group key. -/
def collectStep (st : JObj × List String × List String) (tag : List String) :
    JObj × List String × List String :=
  let res := st.1
  let kws := st.2.1
  let gks := st.2.2
  if tag.length < 2 then st
  else
    let key := tag.headD ""
    let values := tag.drop 1
    if key = "" then st
    else if key = "d" ∧ values.headD "" ≠ "" then
      (objSet res "id" (.str (values.headD "")), kws, gks)
    else if key = "t" ∧ values.headD "" ≠ "" then
      (res, kws ++ [values.headD ""], gks)
    else
      (res, kws, addKey key gks)

/-- Unflattening of the tag list (`unflattenTags`): first pass collecting
id, keywords and group keys, keyword attachment, then group
reconstruction. -/
def unflattenTags (tags : List (List String)) (defaultLanguage : String) :
    Except Unit JObj :=
  let c := tags.foldl collectStep (initResult defaultLanguage, [], [])
  let res1 :=
    if c.2.1.isEmpty then c.1
    else objSet c.1 "keywords" (.arr (c.2.1.map JVal.str))
  processGroups tags c.2.2 [] res1

/-- Well-formedness of the reconstructed `type` field:
`!amb.type || !Array.isArray(amb.type) || amb.type.length === 0` fails. -/
def typeFieldOk (o : JObj) : Bool :=
  match objGet o "type" with
  | some (.arr l) => !l.isEmpty
  | _ => false

/-- Default-language resolution `options?.defaultLanguage || 'de'`. -/
def resolveLanguage (o : Option String) : String :=
  match o with
  | some l => if l = "" then "de" else l
  | none => "de"

/-- Unflattener `nostrToAmb`: kind validation, tag reconstruction with the
thrown TypeError wrapped as `CONVERSION_FAILED`, then the required-field
checks for id, name and type. -/
def nostrToAmb (event : NostrEvent) (options : Option String) :
    ConvResult JObj :=
  if event.kind ≠ 30142 then
    .err { message := "Invalid event kind. Expected 30142 for AMB events.",
           code := .INVALID_FORMAT }
  else
    match unflattenTags event.tags (resolveLanguage options) with
    | .error _ =>
      .err { message := "Conversion failed: TypeError",
             code := .CONVERSION_FAILED }
    | .ok amb =>
      if !fieldTruthy amb "id" then
        .err { message := "Missing required field: id (d tag)",
               code := .MISSING_REQUIRED_FIELD }
      else if !fieldTruthy amb "name" then
        .err { message := "Missing required field: name",
               code := .MISSING_REQUIRED_FIELD }
      else if !typeFieldOk amb then
        .err { message := "Missing required field: type",
               code := .MISSING_REQUIRED_FIELD }
      else .ok amb []

/-- Field read of a successful conversion result. -/
def resultField (r : ConvResult JObj) (k : String) : Option JVal :=
  match r with
  | .ok amb _ => objGet amb k
  | .err _ => none

/-- Creation timestamp of a successful flattening result. -/
def resultCreatedAt (r : ConvResult NostrEvent) : Option Nat :=
  match r with
  | .ok e _ => some e.created_at
  | .err _ => none

/-- Error code of a failed conversion result. -/
def resultErrCode {α : Type} (r : ConvResult α) : Option ErrCode :=
  match r with
  | .ok _ _ => none
  | .err e => some e.code

/-- Success flag of a conversion result. -/
def resultOk {α : Type} (r : ConvResult α) : Bool :=
  match r with
  | .ok _ _ => true
  | .err _ => false

/-- Round trip: flatten a resource (default options, wall clock 0) and
unflatten the resulting event. -/
def roundTrip (r : AmbResource) : ConvResult JObj :=
  match ambToNostr r {} 0 with
  | .ok e _ => nostrToAmb e none
  | .err e => .err e

/-- Field read of an unflattening result before validation. -/
def exceptField (r : Except Unit JObj) (k : String) : Option JVal :=
  match r with
  | .ok o => objGet o k
  | .error _ => none

/-- Keys free of the three relationship prefixes. -/
abbrev relFree (k : String) : Prop :=
  jsStartsWith k "hasPart:" = false ∧ jsStartsWith k "isPartOf:" = false ∧
    jsStartsWith k "isBasedOn:" = false

/-- Event with a wrong kind, used to exercise the INVALID_FORMAT branch. -/
def c5evWrongKind : NostrEvent :=
  { pubkey := "p", created_at := 0, kind := 1,
    tags := [["d", "i"], ["name", "n"], ["type", "T"]], content := "" }

/-- Well-formed minimal AMB event. -/
def c5evGood : NostrEvent :=
  { pubkey := "p", created_at := 0, kind := 30142,
    tags := [["d", "i"], ["name", "n"], ["type", "T"]], content := "" }

/-- Event without a d tag. -/
def c5evNoD : NostrEvent :=
  { pubkey := "p", created_at := 0, kind := 30142,
    tags := [["name", "n"], ["type", "T"]], content := "" }

/-- Event whose nested tags make the reconstruction write a property on a
string value. -/
def c5evPoison : NostrEvent :=
  { pubkey := "p", created_at := 0, kind := 30142,
    tags := [["d", "i"], ["name", "n"], ["type", "T"], ["a:x", "v"], ["a:x:y", "w"]],
    content := "" }

/-- Resource with one about Concept carrying a three-language label map. -/
def c2res (id nm cid l1 l2 l3 : String) : AmbResource :=
  { id := id, type := ["LearningResource"], name := nm,
    about := some [{ id := cid, type := some "Concept",
                     prefLabel := some [("en", l1), ("de", l2), ("fr", l3)] }] }

/-- Event the flattener produces for `c2res` (default options, wall
clock 0). -/
def c2event (id nm cid l1 l2 l3 : String) : NostrEvent :=
  { pubkey := DEFAULT_PUBKEY, created_at := 0, kind := 30142,
    tags := [["d", id], ["type", "LearningResource"], ["name", nm],
      ["about:id", cid], ["about:prefLabel:en", l1], ["about:prefLabel:de", l2],
      ["about:prefLabel:fr", l3], ["about:type", "Concept"]],
    content := "" }

/-- Reconstructed about Concept of `c2event`. -/
def c2about (cid l1 l2 l3 : String) : JObj :=
  [("id", .str cid),
   ("prefLabel", .obj [("en", .str l1), ("de", .str l2), ("fr", .str l3)]),
   ("type", .str "Concept")]

/-- AMB resource the unflattener reconstructs from `c2event`. -/
def c2amb (id nm cid l1 l2 l3 : String) : JObj :=
  [("@context", .arr [.str "https://w3id.org/kim/amb/context.jsonld",
      .obj [("@language", .str "de")]]),
   ("id", .str id), ("type", .arr [.str "LearningResource"]),
   ("name", .str nm), ("about", .arr [.obj (c2about cid l1 l2 l3)])]

/-- Resource with one hasPart entry. -/
def c8res : AmbResource :=
  { id := "i", type := ["T"], name := "n", hasPart := some [{ id := "p1" }] }

/-- Flattening of `c8res` with relationships suppressed. -/
def c8eventOff : NostrEvent :=
  { pubkey := DEFAULT_PUBKEY, created_at := 0, kind := 30142,
    tags := [["d", "i"], ["type", "T"], ["name", "n"]], content := "" }

/-- Flattening of `c8res` with default options. -/
def c8eventOn : NostrEvent :=
  { pubkey := DEFAULT_PUBKEY, created_at := 0, kind := 30142,
    tags := [["d", "i"], ["type", "T"], ["name", "n"], ["hasPart:id", "p1"]],
    content := "" }

def c1res (id nm ds : String) (ty kw il : List String) : AmbResource :=
  { id := id, type := ty, name := nm, description := some ds,
    keywords := some kw, inLanguage := some il }

def c1tags (id nm ds : String) (ty kw il : List String) : List (List String) :=
  [["d", id]] ++ ty.map (fun t => ["type", t]) ++ [["name", nm]]
  ++ [["description", ds]] ++ kw.map (fun k => ["t", jsToLower k])
  ++ il.map (fun l => ["inLanguage", l])

def c1event (id nm ds : String) (ty kw il : List String) : NostrEvent :=
  { pubkey := DEFAULT_PUBKEY, created_at := 0, kind := 30142,
    tags := c1tags id nm ds ty kw il, content := "" }

def scalarValue (vs : List String) : JVal :=
  match vs with
  | [v] => .str v
  | _ => .arr (vs.map JVal.str)


def c1amb (id nm ds : String) (ty kw il : List String) : JObj :=
  [("@context", .arr [.str "https://w3id.org/kim/amb/context.jsonld",
      .obj [("@language", .str "de")]]),
   ("id", .str id),
   ("keywords", .arr (kw.map (fun k => .str (jsToLower k)))),
   ("type", .arr (ty.map JVal.str)), ("name", .str nm),
   ("description", .str ds), ("inLanguage", .arr (il.map JVal.str))]


/-- Counterexample resource for the round-trip claim: one upper-case
keyword. -/
def c1cres : AmbResource :=
  { id := "i", type := ["T"], name := "n", description := some "d",
    keywords := some ["Math"], inLanguage := some ["en"] }

/-- Values of the d tags that assign id during the first pass: well-formed
tags whose key is d and whose first value is truthy. -/
def dValues (tags : List (List String)) : List String :=
  tags.filterMap (fun t =>
    if t.length < 2 then none
    else if t.headD "" = "d" ∧ (t.drop 1).headD "" ≠ "" then
      some ((t.drop 1).headD "")
    else none)

/-- Last element of a string list, if any. -/
def lastOf : List String → Option String
  | [] => none
  | [v] => some v
  | _ :: w :: rest => lastOf (w :: rest)

/-- Nostr event carrying two d tags, the second with value b. -/
def c4ev : NostrEvent :=
  { pubkey := "p", created_at := 0, kind := 30142,
    tags := [["d", "a"], ["d", "b"], ["name", "n"], ["type", "T"]],
    content := "" }

/-- AMB resource the unflattener reconstructs from `c4ev`. -/
def c4amb : JObj :=
  [("@context", .arr [.str "https://w3id.org/kim/amb/context.jsonld",
      .obj [("@language", .str "de")]]),
   ("id", .str "b"), ("name", .str "n"), ("type", .arr [.str "T"])]





/-- Reading a property just written returns the written value. -/
theorem objGet_objSet_self (o : JObj) (k : String) (v : JVal) :
    objGet (objSet o k v) k = some v := by
  induction o with
  | nil => simp [objGet, objSet]
  | cons p rest ih =>
    by_cases h : p.1 = k
    · simp [objGet, objSet, h]
    · simp [objGet, objSet, h, ih]

/-- Writing one property leaves every other property unchanged. -/
theorem objGet_objSet_ne (o : JObj) (k k1 : String) (v : JVal) (h : k1 ≠ k) :
    objGet (objSet o k v) k1 = objGet o k1 := by
  have h2 : ¬(k = k1) := fun hh => h hh.symm
  induction o with
  | nil => simp [objGet, objSet, h2]
  | cons p rest ih =>
    by_cases hp : p.1 = k
    · simp [objGet, objSet, hp, h2]
    · by_cases hq : p.1 = k1
      · simp [objGet, objSet, hp, hq, h]
      · simp [objGet, objSet, hp, hq, ih]

/-- Mapping to lower case keeps a string non-empty. -/
theorem jsToLower_ne_empty (s : String) (h : s ≠ "") : jsToLower s ≠ "" := by
  intro hc
  apply h
  cases s with
  | mk d =>
    have h2 : d.map Char.toLower = [] := congrArg String.data hc
    have h3 : d = [] := List.map_eq_nil_iff.mp h2
    rw [h3]

/-- C6: flattening a resource with an absent or empty id fails with
MISSING_REQUIRED_FIELD naming id; with a non-empty id but empty name it
fails with MISSING_REQUIRED_FIELD naming name (the id check first); with
both non-empty these checks never fail and the conversion succeeds. -/
theorem c6_flatten_required_fields (r : AmbResource) (opts : ConversionOptions)
    (now : Nat) :
    (r.id = "" → ambToNostr r opts now =
      .err { message := "AMB resource must have an id",
             code := .MISSING_REQUIRED_FIELD }) ∧
    (r.id ≠ "" → r.name = "" → ambToNostr r opts now =
      .err { message := "AMB resource must have a name",
             code := .MISSING_REQUIRED_FIELD }) ∧
    (r.id ≠ "" → r.name ≠ "" → resultOk (ambToNostr r opts now) = true) := by
  refine ⟨fun h => ?_, fun h1 h2 => ?_, fun h1 h2 => ?_⟩ <;>
    simp [ambToNostr, resultOk, *]

/-- Witness for C6 at concrete resources. -/
theorem c6_witness :
    ambToNostr { id := "", type := ["T"], name := "n" } {} 0 =
      .err { message := "AMB resource must have an id",
             code := .MISSING_REQUIRED_FIELD } ∧
    ambToNostr { id := "i", type := ["T"], name := "" } {} 0 =
      .err { message := "AMB resource must have a name",
             code := .MISSING_REQUIRED_FIELD } ∧
    resultOk (ambToNostr { id := "i", type := ["T"], name := "n" } {} 0) = true :=
  ⟨(c6_flatten_required_fields { id := "", type := ["T"], name := "n" } {} 0).1 rfl,
   (c6_flatten_required_fields { id := "i", type := ["T"], name := "" } {} 0).2.1
     (by decide) rfl,
   (c6_flatten_required_fields { id := "i", type := ["T"], name := "n" } {} 0).2.2
     (by decide) (by decide)⟩

/-- C10: a supplied timestamp of 0 is treated as absent because the
default is applied by truthiness, so created_at falls back to the wall
clock; any nonzero supplied timestamp is used as created_at. -/
theorem c10_timestamp_truthiness (r : AmbResource) (opts : ConversionOptions)
    (now : Nat) :
    (opts.timestamp = some 0 → resultOk (ambToNostr r opts now) = true →
      resultCreatedAt (ambToNostr r opts now) = some now) ∧
    (∀ t : Nat, opts.timestamp = some t → t ≠ 0 →
      resultOk (ambToNostr r opts now) = true →
      resultCreatedAt (ambToNostr r opts now) = some t) := by
  constructor
  · intro h hok
    by_cases hid : r.id = ""
    · simp [ambToNostr, hid, resultOk] at hok
    · by_cases hnm : r.name = ""
      · simp [ambToNostr, hid, hnm, resultOk] at hok
      · simp [ambToNostr, hid, hnm, resultCreatedAt, resolveTimestamp, h]
  · intro t h ht hok
    by_cases hid : r.id = ""
    · simp [ambToNostr, hid, resultOk] at hok
    · by_cases hnm : r.name = ""
      · simp [ambToNostr, hid, hnm, resultOk] at hok
      · simp [ambToNostr, hid, hnm, resultCreatedAt, resolveTimestamp, h, ht]

/-- Witness for C10 at a concrete resource, with timestamp 0 and with
timestamp 777. -/
theorem c10_witness :
    resultCreatedAt (ambToNostr { id := "i", type := ["T"], name := "n" }
      { timestamp := some 0 } 123) = some 123 ∧
    resultCreatedAt (ambToNostr { id := "i", type := ["T"], name := "n" }
      { timestamp := some 777 } 123) = some 777 :=
  ⟨(c10_timestamp_truthiness { id := "i", type := ["T"], name := "n" }
      { timestamp := some 0 } 123).1 rfl (by decide),
   (c10_timestamp_truthiness { id := "i", type := ["T"], name := "n" }
      { timestamp := some 777 } 123).2 777 rfl (by decide) (by decide)⟩

/-- C9 (amended): for a fixed resource and fixed options carrying a
nonzero supplied timestamp, the flattening result does not depend on the
wall clock, so two invocations give identical results. -/
theorem c9_deterministic (r : AmbResource) (opts : ConversionOptions) (t : Nat)
    (h : opts.timestamp = some t) (ht : t ≠ 0) (now1 now2 : Nat) :
    ambToNostr r opts now1 = ambToNostr r opts now2 := by
  have e1 : resolveTimestamp opts now1 = t := by simp [resolveTimestamp, h, ht]
  have e2 : resolveTimestamp opts now2 = t := by simp [resolveTimestamp, h, ht]
  simp [ambToNostr, e1, e2]

/-- Witness for C9 at a concrete resource and two wall-clock instants. -/
theorem c9_witness :
    (some 5 : Option Nat) = some 5 ∧
    ambToNostr { id := "i", type := ["T"], name := "n" } { timestamp := some 5 } 1 =
      ambToNostr { id := "i", type := ["T"], name := "n" } { timestamp := some 5 } 2 :=
  ⟨rfl, c9_deterministic { id := "i", type := ["T"], name := "n" }
    { timestamp := some 5 } 5 rfl (by decide) 1 2⟩

/-- Counterexample for C9 as stated: with the explicitly supplied
timestamp 0, two invocations at different wall-clock instants give
different results, because the truthiness default discards the 0. -/
theorem c9_counterexample :
    ambToNostr { id := "i", type := ["T"], name := "n" } { timestamp := some 0 } 1 ≠
      ambToNostr { id := "i", type := ["T"], name := "n" } { timestamp := some 0 } 2 := by
  decide

/-- C5 (amended): unflattening fails with INVALID_FORMAT exactly when the
kind differs from 30142; when the kind is right and the reconstruction
itself throws, it fails with CONVERSION_FAILED; when the reconstruction
returns, it fails with MISSING_REQUIRED_FIELD exactly when the id, name
or non-empty-array type field is missing, and succeeds exactly when all
three are present. -/
theorem c5_validation (e : NostrEvent) (lang : Option String) :
    (resultErrCode (nostrToAmb e lang) = some .INVALID_FORMAT ↔ e.kind ≠ 30142) ∧
    (e.kind = 30142 → ∀ err : Unit,
      unflattenTags e.tags (resolveLanguage lang) = .error err →
      resultErrCode (nostrToAmb e lang) = some .CONVERSION_FAILED) ∧
    (e.kind = 30142 → ∀ amb : JObj,
      unflattenTags e.tags (resolveLanguage lang) = .ok amb →
      ((resultErrCode (nostrToAmb e lang) = some .MISSING_REQUIRED_FIELD) ↔
        ¬(fieldTruthy amb "id" = true ∧ fieldTruthy amb "name" = true ∧
          typeFieldOk amb = true)) ∧
      (resultOk (nostrToAmb e lang) = true ↔
        (fieldTruthy amb "id" = true ∧ fieldTruthy amb "name" = true ∧
          typeFieldOk amb = true))) := by
  by_cases hk : e.kind = 30142
  · refine ⟨?_, fun _ err herr => ?_, fun _ amb hok => ?_⟩
    · cases hu : unflattenTags e.tags (resolveLanguage lang) with
      | error u => simp [nostrToAmb, hk, hu, resultErrCode]
      | ok amb =>
        cases hid : fieldTruthy amb "id" <;>
          cases hnm : fieldTruthy amb "name" <;>
            cases hty : typeFieldOk amb <;>
              simp [nostrToAmb, hk, hu, resultErrCode, hid, hnm, hty]
    · simp [nostrToAmb, hk, herr, resultErrCode]
    · cases hid : fieldTruthy amb "id" <;>
        cases hnm : fieldTruthy amb "name" <;>
          cases hty : typeFieldOk amb <;>
            simp [nostrToAmb, hk, hok, resultErrCode, resultOk, hid, hnm, hty]
  · refine ⟨?_, fun h => absurd h hk, fun h => absurd h hk⟩
    simp [nostrToAmb, hk, resultErrCode]

/-- Witness for C5: a wrong kind gives INVALID_FORMAT, a well-formed
event succeeds, an event without a d tag gives MISSING_REQUIRED_FIELD. -/
theorem c5_witness :
    resultErrCode (nostrToAmb c5evWrongKind none) = some .INVALID_FORMAT ∧
    resultOk (nostrToAmb c5evGood none) = true ∧
    resultErrCode (nostrToAmb c5evNoD none) = some .MISSING_REQUIRED_FIELD :=
  ⟨(c5_validation c5evWrongKind none).1.mpr (by decide),
   ((c5_validation c5evGood none).2.2 rfl _ rfl).2.mpr
     ⟨by decide, by decide, by decide⟩,
   ((c5_validation c5evNoD none).2.2 rfl _ rfl).1.mpr (by decide)⟩

/-- Counterexample for C5 as stated: an event of the right kind carrying
d, name and type tags still fails (with CONVERSION_FAILED) when a nested
tag path runs through a string value, so "in all other cases it
succeeds" is false. -/
theorem c5_counterexample :
    nostrToAmb c5evPoison none =
      .err { message := "Conversion failed: TypeError",
             code := .CONVERSION_FAILED } := rfl

/-- C3: two creators with colliding leaf properties reconstruct as an
ordered two-object list, a single creator as a bare object, and within
the full unflattening the always-array field creator is coerced to a
one-element list in the single case. -/
theorem c3_array_object_collapse (n1 t1 n2 t2 : String)
    (h1 : n1 ≠ "") (h2 : t1 ≠ "") (h3 : n2 ≠ "") (h4 : t2 ≠ "") :
    reconstructProperty "creator"
      [⟨"creator:name", [n1]⟩, ⟨"creator:type", [t1]⟩,
       ⟨"creator:name", [n2]⟩, ⟨"creator:type", [t2]⟩] =
      .ok (.arr [.obj [("name", .str n1), ("type", .str t1)],
                 .obj [("name", .str n2), ("type", .str t2)]]) ∧
    reconstructProperty "creator" [⟨"creator:name", [n1]⟩, ⟨"creator:type", [t1]⟩] =
      .ok (.obj [("name", .str n1), ("type", .str t1)]) ∧
    exceptField (unflattenTags
        [["d", "i"], ["type", "T"], ["name", "nm"],
         ["creator:name", n1], ["creator:type", t1]] "de") "creator" =
      some (.arr [.obj [("name", .str n1), ("type", .str t1)]]) ∧
    exceptField (unflattenTags
        [["d", "i"], ["type", "T"], ["name", "nm"],
         ["creator:name", n1], ["creator:type", t1],
         ["creator:name", n2], ["creator:type", t2]] "de") "creator" =
      some (.arr [.obj [("name", .str n1), ("type", .str t1)],
                  .obj [("name", .str n2), ("type", .str t2)]]) := by
  refine ⟨?_, ?_, ?_, ?_⟩ <;>
    simp [reconstructProperty, reconstructNestedObjects, reconLoop, stepTag,
      jsSplit, chSplit, jsIncludes, chMem, jsJoin, navGet, navString, objGet,
      objSet, setAtPath, tgtHasKey, tgtFieldTruthy, fieldTruthy, jsTruthy,
      findLangTag, strHasOwn, canonicalIndex, unflattenTags, collectStep,
      addKey, initResult, processGroups, relatedOf, relClassify, jsStartsWith,
      chIsPre,
      arrayFields, coerceArray, exceptField, List.filterMap, h1, h2, h3, h4]

/-- Witness for C3 at concrete creator values. -/
theorem c3_witness :
    reconstructProperty "creator"
      [⟨"creator:name", ["n1"]⟩, ⟨"creator:type", ["Person"]⟩] =
      .ok (.obj [("name", .str "n1"), ("type", .str "Person")]) :=
  (c3_array_object_collapse "n1" "Person" "n2" "Organization"
    (by decide) (by decide) (by decide) (by decide)).2.1

/-- C7: a prefLabel leaf paired with a sibling inLanguage tag within one
position (after or before) is written as a single-key language map, and a
bare inLanguage tag whose target already carries a prefLabel is skipped
without writing anything. -/
theorem c7_preflabel_pairing (label lang i v : String) (hl : label ≠ "")
    (hg : lang ≠ "") (hi : i ≠ "") (hv : v ≠ "") :
    reconstructNestedObjects
      [⟨"about:prefLabel", [label]⟩, ⟨"about:inLanguage", [lang]⟩] =
      .ok (.obj [("prefLabel", .obj [(lang, .str label)])]) ∧
    reconstructNestedObjects
      [⟨"about:inLanguage", [lang]⟩, ⟨"about:prefLabel", [label]⟩] =
      .ok (.obj [("inLanguage", .str lang), ("prefLabel", .obj [(lang, .str label)])]) ∧
    reconstructNestedObjects
      [⟨"about:prefLabel", [label]⟩, ⟨"about:id", [i]⟩, ⟨"about:x", [v]⟩,
       ⟨"about:inLanguage", [lang]⟩] =
      .ok (.obj [("prefLabel", .str label), ("id", .str i), ("x", .str v)]) := by
  refine ⟨?_, ?_, ?_⟩ <;>
    simp [reconstructNestedObjects, reconLoop, stepTag,
      jsSplit, chSplit, jsJoin, navGet, navString, objGet,
      objSet, setAtPath, tgtHasKey, tgtFieldTruthy, fieldTruthy, jsTruthy,
      findLangTag, strHasOwn, canonicalIndex, List.find?, List.enum,
      List.enumFrom, hl, hg, hi, hv]

/-- Witness for C7 at concrete label and language values. -/
theorem c7_witness :
    reconstructNestedObjects
      [⟨"about:prefLabel", ["Mathe"]⟩, ⟨"about:inLanguage", ["de"]⟩] =
      .ok (.obj [("prefLabel", .obj [("de", .str "Mathe")])]) :=
  (c7_preflabel_pairing "Mathe" "de" "i" "v"
    (by decide) (by decide) (by decide) (by decide)).1

set_option maxHeartbeats 2000000 in
/-- C2: a resource whose about list holds one Concept labelled in exactly
en, de and fr flattens to an event with exactly those three distinct
about-prefLabel tags (in map order), and unflattening that event
reconstructs one Concept whose prefLabel map holds exactly those three
language entries. -/
theorem c2_multilanguage_preservation (id nm cid l1 l2 l3 : String)
    (hid : id ≠ "") (hnm : nm ≠ "") (hcid : cid ≠ "")
    (h1 : l1 ≠ "") (h2 : l2 ≠ "") (h3 : l3 ≠ "") :
    ambToNostr (c2res id nm cid l1 l2 l3) {} 0 =
      .ok (c2event id nm cid l1 l2 l3)
        ["Using default pubkey - should provide a real pubkey in production"] ∧
    (c2event id nm cid l1 l2 l3).tags.filter
        (fun tag => jsStartsWith (tag.headD "") "about:prefLabel:") =
      [["about:prefLabel:en", l1], ["about:prefLabel:de", l2],
       ["about:prefLabel:fr", l3]] ∧
    nostrToAmb (c2event id nm cid l1 l2 l3) none =
      .ok (c2amb id nm cid l1 l2 l3) [] ∧
    objGet (c2amb id nm cid l1 l2 l3) "about" =
      some (.arr [.obj (c2about cid l1 l2 l3)]) ∧
    objGet (c2about cid l1 l2 l3) "prefLabel" =
      some (.obj [("en", .str l1), ("de", .str l2), ("fr", .str l3)]) := by
  refine ⟨?_, ?_, ?_, rfl, rfl⟩
  · simp [ambToNostr, buildTags, c2res, c2event, listFlat, conceptTags,
      optStrTags, resolvePubkey, resolveTimestamp, hid, hnm, hcid]
  · simp only [c2event, List.filter_cons, List.filter_nil, List.headD]
    norm_num [show jsStartsWith "d" "about:prefLabel:" = false from by decide,
      show jsStartsWith "type" "about:prefLabel:" = false from by decide,
      show jsStartsWith "name" "about:prefLabel:" = false from by decide,
      show jsStartsWith "about:id" "about:prefLabel:" = false from by decide,
      show jsStartsWith "about:prefLabel:en" "about:prefLabel:" = true from by decide,
      show jsStartsWith "about:prefLabel:de" "about:prefLabel:" = true from by decide,
      show jsStartsWith "about:prefLabel:fr" "about:prefLabel:" = true from by decide,
      show jsStartsWith "about:type" "about:prefLabel:" = false from by decide]
  · simp [nostrToAmb, c2event, c2amb, c2about, resolveLanguage, unflattenTags,
      collectStep, addKey, initResult, processGroups, relatedOf, relClassify,
      reconstructProperty, reconstructNestedObjects, reconLoop, stepTag,
      jsSplit, chSplit, jsIncludes, chMem, jsJoin, navGet, navString, objGet,
      objSet, setAtPath, tgtHasKey, tgtFieldTruthy, fieldTruthy, jsTruthy,
      findLangTag, strHasOwn, canonicalIndex, arrayFields, coerceArray,
      typeFieldOk, List.find?, List.enum, List.enumFrom, List.filterMap,
      jsStartsWith, chIsPre, hid, hnm, hcid, h1, h2, h3]

/-- Witness for C2 at concrete labels. -/
theorem c2_witness :
    nostrToAmb (c2event "i" "n" "cid" "Computer Science" "Informatik" "Informatique")
      none =
      .ok (c2amb "i" "n" "cid" "Computer Science" "Informatik" "Informatique") [] :=
  (c2_multilanguage_preservation "i" "n" "cid" "Computer Science" "Informatik"
    "Informatique" (by decide) (by decide) (by decide) (by decide) (by decide)
    (by decide)).2.2.1

theorem chIsPre_append_split (p l1 l2 : List Char) :
    chIsPre p (l1 ++ l2) =
      (chIsPre (p.take l1.length) l1 && chIsPre (p.drop l1.length) l2) := by
  induction p generalizing l1 with
  | nil => cases l1 <;> simp [chIsPre]
  | cons c cs ih =>
    cases l1 with
    | nil => simp [chIsPre]
    | cons d ds => simp [chIsPre, ih, Bool.and_assoc]

/-- A concrete mismatch inside the base segment refutes a prefix test on
any extension of the base. -/
theorem jsStartsWith_append_false (b t p : String)
    (h : chIsPre (p.data.take b.data.length) b.data = false) :
    jsStartsWith (b ++ t) p = false := by
  unfold jsStartsWith
  rw [String.data_append, chIsPre_append_split, h, Bool.false_and]

theorem relFree_append (b t : String)
    (h1 : chIsPre ("hasPart:".data.take b.data.length) b.data = false)
    (h2 : chIsPre ("isPartOf:".data.take b.data.length) b.data = false)
    (h3 : chIsPre ("isBasedOn:".data.take b.data.length) b.data = false) :
    relFree (b ++ t) :=
  ⟨jsStartsWith_append_false b t _ h1, jsStartsWith_append_false b t _ h2,
   jsStartsWith_append_false b t _ h3⟩

/-- Keys of the optional scalar segment. -/
theorem optStrTags_key (k : String) (o : Option String) :
    ∀ tag ∈ optStrTags k o, tag.headD "" = k := by
  intro tag h
  cases o with
  | none => simp [optStrTags] at h
  | some s =>
    simp only [optStrTags] at h
    split_ifs at h with hc
    · simp only [List.mem_singleton] at h
      subst h
      simp
    · simp at h

/-- Membership in a guarded list segment comes from one list entry. -/
theorem listFlat_mem {α : Type} (o : Option (List α))
    (f : α → List (List String)) (tag : List String)
    (h : tag ∈ listFlat o f) : ∃ l x, o = some l ∧ x ∈ l ∧ tag ∈ f x := by
  cases o with
  | none => simp [listFlat] at h
  | some l =>
    simp only [listFlat] at h
    split_ifs at h with hc
    · simp at h
    · simp only [List.mem_flatten, List.mem_map] at h
      obtain ⟨ts, ⟨x, hx, hfx⟩, htag⟩ := h
      subst hfx
      exact ⟨l, x, rfl, hx, htag⟩

/-- Entry introduction for a guarded list segment. -/
theorem listFlat_mem_intro {α : Type} (l : List α) (x : α)
    (f : α → List (List String)) (tag : List String)
    (hx : x ∈ l) (htag : tag ∈ f x) : tag ∈ listFlat (some l) f := by
  have hne : l.isEmpty = false := by
    cases l with
    | nil => simp at hx
    | cons a as => simp
  simp only [listFlat, hne, Bool.false_eq_true, if_false]
  simp only [List.mem_flatten, List.mem_map]
  exact ⟨f x, ⟨x, hx, rfl⟩, htag⟩

theorem conceptTags_key (base : String) (c : Concept) :
    ∀ tag ∈ conceptTags base c, tag.headD "" = base ++ ":id" ∨
      (∃ lang, tag.headD "" = base ++ ":prefLabel:" ++ lang) ∨
      tag.headD "" = base ++ ":type" := by
  obtain ⟨cid, cty, cpl⟩ := c
  intro tag h
  simp only [conceptTags, List.mem_append] at h
  rcases h with (h | h) | h
  · split_ifs at h with hc
    · simp only [List.mem_singleton] at h
      subst h
      simp
    · simp at h
  · rcases cpl with _ | pl
    · simp at h
    · simp only [List.mem_map] at h
      obtain ⟨q, -, hq⟩ := h
      subst hq
      exact Or.inr (Or.inl ⟨q.1, rfl⟩)
  · rcases cty with _ | tv
    · simp at h
    · dsimp only at h
      split_ifs at h with hc
      · simp only [List.mem_singleton] at h
        subst h
        simp
      · simp at h

theorem affiliationTags_key (a : Organization) :
    ∀ tag ∈ affiliationTags a, tag.headD "" = "creator:affiliation:name" ∨
      tag.headD "" = "creator:affiliation:type" ∨
      tag.headD "" = "creator:affiliation:id" := by
  obtain ⟨aty, anm, aid⟩ := a
  intro tag h
  simp only [affiliationTags, List.mem_append] at h
  rcases h with (h | h) | h
  · split_ifs at h with hc
    · simp only [List.mem_singleton] at h
      subst h
      simp
    · simp at h
  · split_ifs at h with hc
    · simp only [List.mem_singleton] at h
      subst h
      simp
    · simp at h
  · rcases aid with _ | i
    · simp at h
    · dsimp only at h
      split_ifs at h with hc
      · simp only [List.mem_singleton] at h
        subst h
        simp
      · simp at h

theorem creatorTags_key (c : Agent) :
    ∀ tag ∈ creatorTags c, tag.headD "" = "creator:name" ∨
      tag.headD "" = "creator:type" ∨ tag.headD "" = "creator:id" ∨
      tag.headD "" = "creator:honorificPrefix" ∨
      tag.headD "" = "creator:affiliation:name" ∨
      tag.headD "" = "creator:affiliation:type" ∨
      tag.headD "" = "creator:affiliation:id" := by
  intro tag h
  simp only [creatorTags, List.mem_append] at h
  rcases h with (h | h) | h
  · simp only [List.mem_cons, List.mem_singleton] at h
    rcases h with h | h | h
    · subst h
      simp
    · subst h
      simp
    · simp at h
  · rcases hyp : agentId c with _ | i
    · rw [hyp] at h
      simp at h
    · rw [hyp] at h
      dsimp only at h
      split_ifs at h with hc
      · simp only [List.mem_singleton] at h
        subst h
        simp
      · simp at h
  · cases c with
    | org o => simp at h
    | person p =>
      obtain ⟨pty, pnm, pid, php, paf⟩ := p
      simp only [List.mem_append] at h
      rcases h with h | h
      · rcases php with _ | hpv
        · simp at h
        · dsimp only at h
          split_ifs at h with hc
          · simp only [List.mem_singleton] at h
            subst h
            simp
          · simp at h
      · rcases paf with _ | av
        · simp at h
        · dsimp only at h
          rcases affiliationTags_key av tag h with h1 | h1 | h1 <;> rw [h1] <;> simp

theorem publisherTags_key (c : Agent) :
    ∀ tag ∈ publisherTags c, tag.headD "" = "publisher:name" ∨
      tag.headD "" = "publisher:type" ∨ tag.headD "" = "publisher:id" := by
  intro tag h
  simp only [publisherTags, List.mem_append] at h
  rcases h with h | h
  · simp only [List.mem_cons, List.mem_singleton] at h
    rcases h with h | h
    · subst h
      simp
    · rcases h with h | h
      · subst h
        simp
      · simp at h
  · rcases hyp : agentId c with _ | i
    · rw [hyp] at h
      simp at h
    · rw [hyp] at h
      dsimp only at h
      split_ifs at h with hc
      · simp only [List.mem_singleton] at h
        subst h
        simp
      · simp at h

/-- Every tag the flattener emits with relationships suppressed has a key
free of the three relationship prefixes. -/
theorem buildTags_relFree (r : AmbResource) (opts : ConversionOptions)
    (h : opts.includeRelationships = some false) :
    ∀ tag ∈ buildTags r opts, relFree (tag.headD "") := by
  intro tag htag
  have hrel : (if opts.includeRelationships ≠ some false then
      listFlat r.hasPart (refTags "hasPart" true)
      ++ listFlat r.isPartOf (refTags "isPartOf" true)
      ++ listFlat r.isBasedOn (refTags "isBasedOn" false) else []) =
      ([] : List (List String)) := by
    rw [if_neg]
    simp [h]
  simp only [buildTags, hrel, List.mem_append, or_assoc, List.append_nil] at htag
  rcases htag with h1 | h1 | h1 | h1 | h1 | h1 | h1 | h1 | h1 | h1 | h1 | h1 |
    h1 | h1 | h1 | h1 | h1 | h1 | h1
  · simp only [List.mem_singleton] at h1
    subst h1
    simp only [List.headD_cons]
    decide
  · simp only [List.mem_map] at h1
    obtain ⟨x, -, h1⟩ := h1
    subst h1
    simp only [List.headD_cons]
    decide
  · simp only [List.mem_singleton] at h1
    subst h1
    simp only [List.headD_cons]
    decide
  · rw [optStrTags_key "description" _ tag h1]
    decide
  · rcases hk : r.keywords with _ | ks
    · rw [hk] at h1
      simp at h1
    · rw [hk] at h1
      dsimp only at h1
      split_ifs at h1 with hc
      · simp at h1
      · simp only [List.mem_map] at h1
        obtain ⟨x, -, h1⟩ := h1
        subst h1
        simp only [List.headD_cons]
        decide
  · rcases hk : r.inLanguage with _ | ls
    · rw [hk] at h1
      simp at h1
    · rw [hk] at h1
      dsimp only at h1
      split_ifs at h1 with hc
      · simp at h1
      · simp only [List.mem_map] at h1
        obtain ⟨x, -, h1⟩ := h1
        subst h1
        simp only [List.headD_cons]
        decide
  · obtain ⟨l, x, -, -, h1⟩ := listFlat_mem _ _ tag h1
    rcases creatorTags_key x tag h1 with h2 | h2 | h2 | h2 | h2 | h2 | h2 <;>
      rw [h2] <;> decide
  · obtain ⟨l, x, -, -, h1⟩ := listFlat_mem _ _ tag h1
    rcases publisherTags_key x tag h1 with h2 | h2 | h2 <;> rw [h2] <;> decide
  · rcases hk : r.license with _ | lic
    · rw [hk] at h1
      simp at h1
    · rw [hk] at h1
      dsimp only at h1
      split_ifs at h1 with hc
      · simp only [List.mem_singleton] at h1
        subst h1
        simp only [List.headD_cons]
        decide
      · simp at h1
  · rcases hk : r.isAccessibleForFree with _ | b
    · rw [hk] at h1
      simp at h1
    · rw [hk] at h1
      dsimp only at h1
      simp only [List.mem_singleton] at h1
      subst h1
      simp only [List.headD_cons]
      decide
  · rcases hk : r.conditionsOfAccess with _ | c
    · rw [hk] at h1
      simp at h1
    · rw [hk] at h1
      dsimp only at h1
      rcases conceptTags_key "conditionsOfAccess" c tag h1 with h2 | ⟨lang, h2⟩ | h2 <;>
        rw [h2]
      · exact relFree_append "conditionsOfAccess" ":id" (by decide) (by decide) (by decide)
      · exact relFree_append ("conditionsOfAccess" ++ ":prefLabel:") lang
          (by decide) (by decide) (by decide)
      · exact relFree_append "conditionsOfAccess" ":type" (by decide) (by decide) (by decide)
  · obtain ⟨l, x, -, -, h1⟩ := listFlat_mem _ _ tag h1
    rcases conceptTags_key "about" x tag h1 with h2 | ⟨lang, h2⟩ | h2 <;> rw [h2]
    · exact relFree_append "about" ":id" (by decide) (by decide) (by decide)
    · exact relFree_append ("about" ++ ":prefLabel:") lang
        (by decide) (by decide) (by decide)
    · exact relFree_append "about" ":type" (by decide) (by decide) (by decide)
  · obtain ⟨l, x, -, -, h1⟩ := listFlat_mem _ _ tag h1
    rcases conceptTags_key "educationalLevel" x tag h1 with h2 | ⟨lang, h2⟩ | h2 <;>
      rw [h2]
    · exact relFree_append "educationalLevel" ":id" (by decide) (by decide) (by decide)
    · exact relFree_append ("educationalLevel" ++ ":prefLabel:") lang
        (by decide) (by decide) (by decide)
    · exact relFree_append "educationalLevel" ":type" (by decide) (by decide) (by decide)
  · obtain ⟨l, x, -, -, h1⟩ := listFlat_mem _ _ tag h1
    rcases conceptTags_key "audience" x tag h1 with h2 | ⟨lang, h2⟩ | h2 <;> rw [h2]
    · exact relFree_append "audience" ":id" (by decide) (by decide) (by decide)
    · exact relFree_append ("audience" ++ ":prefLabel:") lang
        (by decide) (by decide) (by decide)
    · exact relFree_append "audience" ":type" (by decide) (by decide) (by decide)
  · obtain ⟨l, x, -, -, h1⟩ := listFlat_mem _ _ tag h1
    rcases conceptTags_key "learningResourceType" x tag h1 with h2 | ⟨lang, h2⟩ | h2 <;>
      rw [h2]
    · exact relFree_append "learningResourceType" ":id" (by decide) (by decide) (by decide)
    · exact relFree_append ("learningResourceType" ++ ":prefLabel:") lang
        (by decide) (by decide) (by decide)
    · exact relFree_append "learningResourceType" ":type" (by decide) (by decide) (by decide)
  · rw [optStrTags_key "datePublished" _ tag h1]
    decide
  · rw [optStrTags_key "dateCreated" _ tag h1]
    decide
  · rw [optStrTags_key "image" _ tag h1]
    decide
  · rcases hk : ConversionOptions.relayHints opts with _ | rs
    · rw [hk] at h1
      simp at h1
    · rw [hk] at h1
      dsimp only at h1
      split_ifs at h1 with hc
      · simp at h1
      · simp only [List.mem_map] at h1
        obtain ⟨x, -, h1⟩ := h1
        subst h1
        simp only [List.headD_cons]
        decide

/-- The relationship id tag is the head of a reference block. -/
theorem refTags_id_mem (base : String) (w : Bool) (x : ResourceRef) :
    [base ++ ":id", ResourceRef.id x] ∈ refTags base w x := by
  simp [refTags]

/-- C8: with includeRelationships explicitly false the flattened event
contains zero tags whose key starts with hasPart:, isPartOf: or
isBasedOn:, even when the resource has such entries; with any other
option value those id tags are emitted for every corresponding entry. -/
theorem c8_relationship_suppression (r : AmbResource)
    (opts : ConversionOptions) (now : Nat) :
    (opts.includeRelationships = some false →
      ∀ e w, ambToNostr r opts now = .ok e w →
      ∀ tag ∈ e.tags, relFree (tag.headD "")) ∧
    (opts.includeRelationships ≠ some false →
      ∀ e w, ambToNostr r opts now = .ok e w →
      (∀ l, r.hasPart = some l → ∀ x ∈ l,
        ["hasPart:id", ResourceRef.id x] ∈ e.tags) ∧
      (∀ l, r.isPartOf = some l → ∀ x ∈ l,
        ["isPartOf:id", ResourceRef.id x] ∈ e.tags) ∧
      (∀ l, r.isBasedOn = some l → ∀ x ∈ l,
        ["isBasedOn:id", ResourceRef.id x] ∈ e.tags)) := by
  constructor
  · intro hrel e w heq tag htag
    by_cases hid : r.id = ""
    · simp [ambToNostr, hid] at heq
    by_cases hnm : r.name = ""
    · simp [ambToNostr, hid, hnm] at heq
    simp only [ambToNostr, hid, hnm, if_neg, if_false,
      ConvResult.ok.injEq] at heq
    obtain ⟨he, -⟩ := heq
    rw [← he] at htag
    exact buildTags_relFree r opts hrel tag htag
  · intro hrel e w heq
    by_cases hid : r.id = ""
    · simp [ambToNostr, hid] at heq
    by_cases hnm : r.name = ""
    · simp [ambToNostr, hid, hnm] at heq
    simp only [ambToNostr, hid, hnm, if_neg, if_false,
      ConvResult.ok.injEq] at heq
    obtain ⟨he, -⟩ := heq
    refine ⟨fun l hl x hx => ?_, fun l hl x hx => ?_, fun l hl x hx => ?_⟩
    · have hmem : ["hasPart:id", ResourceRef.id x] ∈
          listFlat r.hasPart (refTags "hasPart" true) := by
        rw [hl]
        exact listFlat_mem_intro l x _ _ hx (refTags_id_mem "hasPart" true x)
      rw [← he]
      simp [buildTags, hrel, hmem]
    · have hmem : ["isPartOf:id", ResourceRef.id x] ∈
          listFlat r.isPartOf (refTags "isPartOf" true) := by
        rw [hl]
        exact listFlat_mem_intro l x _ _ hx (refTags_id_mem "isPartOf" true x)
      rw [← he]
      simp [buildTags, hrel, hmem]
    · have hmem : ["isBasedOn:id", ResourceRef.id x] ∈
          listFlat r.isBasedOn (refTags "isBasedOn" false) := by
        rw [hl]
        exact listFlat_mem_intro l x _ _ hx (refTags_id_mem "isBasedOn" false x)
      rw [← he]
      simp [buildTags, hrel, hmem]

/-- Witness for C8 at a concrete resource with one hasPart entry. -/
theorem c8_witness :
    relFree ((["d", "i"] : List String).headD "") ∧
    (["hasPart:id", "p1"] : List String) ∈ c8eventOn.tags :=
  ⟨(c8_relationship_suppression c8res { includeRelationships := some false } 0).1
      rfl c8eventOff
      ["Using default pubkey - should provide a real pubkey in production"]
      (by decide) ["d", "i"] (by decide),
   ((c8_relationship_suppression c8res {} 0).2 (by decide) c8eventOn
      ["Using default pubkey - should provide a real pubkey in production"]
      (by decide)).1 [{ id := "p1" }] rfl { id := "p1" } (by decide)⟩

theorem addKey_idem (k : String) (g : List String) :
    addKey k (addKey k g) = addKey k g := by
  by_cases h : k ∈ g <;> simp [addKey, h]

theorem collect_scalar_seg (key : String) (h1 : key ≠ "") (h2 : key ≠ "d")
    (h3 : key ≠ "t") (vs : List String) (hvs : vs ≠ []) :
    ∀ st : JObj × List String × List String,
      List.foldl collectStep st (vs.map (fun v => [key, v])) =
        (st.1, st.2.1, addKey key st.2.2) := by
  induction vs with
  | nil => exact absurd rfl hvs
  | cons v tl ih =>
    intro st
    have hstep : collectStep st [key, v] = (st.1, st.2.1, addKey key st.2.2) := by
      simp [collectStep, h1, h2, h3]
    rw [List.map_cons, List.foldl_cons, hstep]
    cases tl with
    | nil => simp
    | cons w tl2 =>
      rw [ih (by simp) (st.1, st.2.1, addKey key st.2.2)]
      simp [addKey_idem]

theorem collect_t_seg (vs : List String) (hvs : ∀ v ∈ vs, v ≠ "") :
    ∀ st : JObj × List String × List String,
      List.foldl collectStep st (vs.map (fun k => ["t", jsToLower k])) =
        (st.1, st.2.1 ++ vs.map jsToLower, st.2.2) := by
  induction vs with
  | nil => simp
  | cons v tl ih =>
    intro st
    have hne : jsToLower v ≠ "" := jsToLower_ne_empty v (hvs v (by simp))
    have hstep : collectStep st ["t", jsToLower v] =
        (st.1, st.2.1 ++ [jsToLower v], st.2.2) := by
      simp [collectStep, hne]
    rw [List.map_cons, List.foldl_cons, hstep]
    rw [ih (fun x hx => hvs x (by simp [hx]))]
    simp

theorem collect_plain_step (key : String) (h1 : key ≠ "") (h2 : key ≠ "d")
    (h3 : key ≠ "t") (v : String) (st : JObj × List String × List String) :
    List.foldl collectStep st [[key, v]] = (st.1, st.2.1, addKey key st.2.2) := by
  simp [collectStep, h1, h2, h3]

theorem collect_d_step (v : String) (hv : v ≠ "")
    (st : JObj × List String × List String) :
    List.foldl collectStep st [["d", v]] =
      (objSet st.1 "id" (.str v), st.2.1, st.2.2) := by
  simp [collectStep, hv]

theorem filterMap_map_some {α β γ : Type} (g : β → Option γ) (f : α → β)
    (f2 : α → γ) (l : List α) (h : ∀ a, g (f a) = some (f2 a)) :
    (l.map f).filterMap g = l.map f2 := by
  induction l with
  | nil => simp
  | cons a tl ih => simp [h, ih]

theorem filterMap_map_none {α β γ : Type} (g : β → Option γ) (f : α → β)
    (l : List α) (h : ∀ a, g (f a) = none) :
    (l.map f).filterMap g = ([] : List γ) := by
  induction l with
  | nil => simp
  | cons a tl ih => simp [h, ih]

theorem c1_related_type (id nm ds : String) (ty kw il : List String) :
    relatedOf (c1tags id nm ds ty kw il) "type" "type" = ty.map (fun v => ⟨"type", [v]⟩) := by
  simp only [c1tags, relatedOf, List.filterMap_append]
  rw [show List.filterMap (relClassify "type" "type") [["d", id]] = [] from rfl]
  rw [filterMap_map_some (relClassify "type" "type") (fun t => ["type", t])
      (fun v => (⟨"type", [v]⟩ : RTag)) ty (fun a => rfl)]
  rw [show List.filterMap (relClassify "type" "type") [["name", nm]] = [] from rfl]
  rw [show List.filterMap (relClassify "type" "type") [["description", ds]] = [] from rfl]
  rw [filterMap_map_none (relClassify "type" "type") (fun k => ["t", jsToLower k])
      kw (fun a => rfl)]
  rw [filterMap_map_none (relClassify "type" "type")
      (fun l => ["inLanguage", l]) il (fun a => rfl)]
  simp [List.filterMap]

theorem c1_related_name (id nm ds : String) (ty kw il : List String) :
    relatedOf (c1tags id nm ds ty kw il) "name" "name" = [⟨"name", [nm]⟩] := by
  simp only [c1tags, relatedOf, List.filterMap_append]
  rw [show List.filterMap (relClassify "name" "name") [["d", id]] = [] from rfl]
  rw [filterMap_map_none (relClassify "name" "name") (fun t => ["type", t])
      ty (fun a => rfl)]
  rw [show List.filterMap (relClassify "name" "name") [["name", nm]] = [⟨"name", [nm]⟩] from rfl]
  rw [show List.filterMap (relClassify "name" "name") [["description", ds]] = [] from rfl]
  rw [filterMap_map_none (relClassify "name" "name") (fun k => ["t", jsToLower k])
      kw (fun a => rfl)]
  rw [filterMap_map_none (relClassify "name" "name")
      (fun l => ["inLanguage", l]) il (fun a => rfl)]
  simp [List.filterMap]

theorem c1_related_desc (id nm ds : String) (ty kw il : List String) :
    relatedOf (c1tags id nm ds ty kw il) "description" "description" = [⟨"description", [ds]⟩] := by
  simp only [c1tags, relatedOf, List.filterMap_append]
  rw [show List.filterMap (relClassify "description" "description") [["d", id]] = [] from rfl]
  rw [filterMap_map_none (relClassify "description" "description") (fun t => ["type", t])
      ty (fun a => rfl)]
  rw [show List.filterMap (relClassify "description" "description") [["name", nm]] = [] from rfl]
  rw [show List.filterMap (relClassify "description" "description") [["description", ds]] = [⟨"description", [ds]⟩] from rfl]
  rw [filterMap_map_none (relClassify "description" "description") (fun k => ["t", jsToLower k])
      kw (fun a => rfl)]
  rw [filterMap_map_none (relClassify "description" "description")
      (fun l => ["inLanguage", l]) il (fun a => rfl)]
  simp [List.filterMap]

theorem c1_related_il (id nm ds : String) (ty kw il : List String) :
    relatedOf (c1tags id nm ds ty kw il) "inLanguage" "inLanguage" = il.map (fun v => ⟨"inLanguage", [v]⟩) := by
  simp only [c1tags, relatedOf, List.filterMap_append]
  rw [show List.filterMap (relClassify "inLanguage" "inLanguage") [["d", id]] = [] from rfl]
  rw [filterMap_map_none (relClassify "inLanguage" "inLanguage") (fun t => ["type", t])
      ty (fun a => rfl)]
  rw [show List.filterMap (relClassify "inLanguage" "inLanguage") [["name", nm]] = [] from rfl]
  rw [show List.filterMap (relClassify "inLanguage" "inLanguage") [["description", ds]] = [] from rfl]
  rw [filterMap_map_none (relClassify "inLanguage" "inLanguage") (fun k => ["t", jsToLower k])
      kw (fun a => rfl)]
  rw [filterMap_map_some (relClassify "inLanguage" "inLanguage")
      (fun l => ["inLanguage", l]) (fun v => (⟨"inLanguage", [v]⟩ : RTag)) il
      (fun a => rfl)]
  simp [List.filterMap]

theorem coerce_scalar (key : String) (hkey : key ∈ arrayFields)
    (vs : List String) (hvs : vs ≠ []) :
    coerceArray key (scalarValue vs) = .arr (vs.map JVal.str) := by
  rcases vs with _ | ⟨a, _ | ⟨b, tl⟩⟩
  · exact absurd rfl hvs
  · simp [scalarValue, coerceArray, hkey]
  · simp [scalarValue, coerceArray, hkey]

theorem reconstructProperty_scalar (key : String)
    (hk : jsIncludes key ':' = false) (vs : List String) :
    reconstructProperty key (vs.map (fun v => ⟨key, [v]⟩)) =
      .ok (scalarValue vs) := by
  have hany : ((vs.map (fun v => (⟨key, [v]⟩ : RTag))).any
      (fun t => jsIncludes t.key ':')) = false := by
    induction vs with
    | nil => simp
    | cons a tl ih => simp [hk, ih]
  simp only [reconstructProperty, hany]
  rcases vs with _ | ⟨a, _ | ⟨b, tl⟩⟩ <;> simp [scalarValue]

theorem c1_unflatten (id nm ds : String) (ty kw il : List String)
    (hid : id ≠ "") (hnm : nm ≠ "") (hds : ds ≠ "") (hty : ty ≠ [])
    (hkw : kw ≠ []) (hkwE : ∀ k ∈ kw, k ≠ "") (hil : il ≠ []) :
    unflattenTags (c1tags id nm ds ty kw il) "de" =
      .ok (c1amb id nm ds ty kw il) := by
  have hc : (c1tags id nm ds ty kw il).foldl collectStep
      (initResult "de", [], []) =
      (objSet (initResult "de") "id" (.str id), kw.map jsToLower,
       ["type", "name", "description", "inLanguage"]) := by
    simp only [c1tags, List.foldl_append]
    rw [collect_d_step id hid]
    rw [collect_scalar_seg "type" (by decide) (by decide) (by decide) ty hty]
    rw [collect_plain_step "name" (by decide) (by decide) (by decide) nm]
    rw [collect_plain_step "description" (by decide) (by decide) (by decide) ds]
    rw [collect_t_seg kw hkwE]
    rw [collect_scalar_seg "inLanguage" (by decide) (by decide) (by decide) il hil]
    simp [addKey]
  have hkE : (kw.map jsToLower).isEmpty = false := by
    cases kw with
    | nil => exact absurd rfl hkw
    | cons a tl => simp
  have h1 := c1_related_type id nm ds ty kw il
  have h2 := c1_related_name id nm ds ty kw il
  have h3 := c1_related_desc id nm ds ty kw il
  have h4 := c1_related_il id nm ds ty kw il
  have hp1 := reconstructProperty_scalar "type" (by decide) ty
  have hp4 := reconstructProperty_scalar "inLanguage" (by decide) il
  have hp2 : reconstructProperty "name" [⟨"name", [nm]⟩] = .ok (.str nm) := by
    simp [reconstructProperty, jsIncludes, chMem]
  have hp3 : reconstructProperty "description" [⟨"description", [ds]⟩] =
      .ok (.str ds) := by
    simp [reconstructProperty, jsIncludes, chMem]
  have hq1 : coerceArray "type" (scalarValue ty) = .arr (ty.map JVal.str) :=
    coerce_scalar "type" (by decide) ty hty
  have hq4 : coerceArray "inLanguage" (scalarValue il) =
      .arr (il.map JVal.str) := coerce_scalar "inLanguage" (by decide) il hil
  have hq2 : coerceArray "name" (.str nm) = .str nm := rfl
  have hq3 : coerceArray "description" (.str ds) = .str ds := rfl
  simp only [unflattenTags, hc, hkE, Bool.false_eq_true, if_false]
  simp only [processGroups,
    show (jsSplit ':' "type").headD "" = "type" from rfl,
    show (jsSplit ':' "name").headD "" = "name" from rfl,
    show (jsSplit ':' "description").headD "" = "description" from rfl,
    show (jsSplit ':' "inLanguage").headD "" = "inLanguage" from rfl]
  simp [h1, h2, h3, h4, hp1, hp2, hp3, hp4, hq1, hq2, hq3, hq4,
    List.mem_map, Function.comp, objSet, initResult, c1amb, List.map_map]

/-- C1 (amended): for a resource with only the scalar fields (all present
and non-empty, keyword entries non-empty), the round trip reproduces id,
name, type, description and inLanguage exactly, and keywords lower-cased
in order (hence exactly when they were already lower-case). -/
theorem c1_roundtrip_scalar_fields (id nm ds : String) (ty kw il : List String)
    (hid : id ≠ "") (hnm : nm ≠ "") (hds : ds ≠ "") (hty : ty ≠ [])
    (hkw : kw ≠ []) (hkwE : ∀ k ∈ kw, k ≠ "") (hil : il ≠ []) :
    ambToNostr (c1res id nm ds ty kw il) {} 0 =
      .ok (c1event id nm ds ty kw il)
        ["Using default pubkey - should provide a real pubkey in production"] ∧
    nostrToAmb (c1event id nm ds ty kw il) none =
      .ok (c1amb id nm ds ty kw il) [] ∧
    objGet (c1amb id nm ds ty kw il) "id" = some (.str id) ∧
    objGet (c1amb id nm ds ty kw il) "name" = some (.str nm) ∧
    objGet (c1amb id nm ds ty kw il) "type" = some (.arr (ty.map JVal.str)) ∧
    objGet (c1amb id nm ds ty kw il) "description" = some (.str ds) ∧
    objGet (c1amb id nm ds ty kw il) "keywords" =
      some (.arr (kw.map (fun k => .str (jsToLower k)))) ∧
    objGet (c1amb id nm ds ty kw il) "inLanguage" =
      some (.arr (il.map JVal.str)) := by
  have ekw : kw.isEmpty = false := by
    cases kw with
    | nil => exact absurd rfl hkw
    | cons a tl => simp
  have eil : il.isEmpty = false := by
    cases il with
    | nil => exact absurd rfl hil
    | cons a tl => simp
  have ety : (ty.map JVal.str).isEmpty = false := by
    cases ty with
    | nil => exact absurd rfl hty
    | cons a tl => simp
  refine ⟨?_, ?_, rfl, rfl, rfl, rfl, rfl, rfl⟩
  · simp [ambToNostr, buildTags, c1res, c1event, c1tags, listFlat, optStrTags,
      resolvePubkey, resolveTimestamp, hid, hnm, hds, ekw, eil]
  · have hu := c1_unflatten id nm ds ty kw il hid hnm hds hty hkw hkwE hil
    simp [nostrToAmb, c1event, resolveLanguage, hu, fieldTruthy, jsTruthy,
      typeFieldOk, objGet, c1amb, hid, hnm, ety]

/-- Witness for C1 at concrete field values. -/
theorem c1_witness :
    nostrToAmb (c1event "i" "n" "d" ["LearningResource"] ["math"] ["en"]) none =
      .ok (c1amb "i" "n" "d" ["LearningResource"] ["math"] ["en"]) [] :=
  (c1_roundtrip_scalar_fields "i" "n" "d" ["LearningResource"] ["math"] ["en"]
    (by decide) (by decide) (by decide) (by decide) (by decide) (by decide)
    (by decide)).2.1

/-- Counterexample for C1 as stated: the keyword "Math" comes back
lower-cased as "math", so keywords are not reproduced exactly. -/
theorem c1_counterexample :
    resultField (roundTrip c1cres) "keywords" = some (.arr [.str "math"]) ∧
    some (JVal.arr [.str "math"]) ≠ some (JVal.arr [.str "Math"]) :=
  ⟨rfl, by simp⟩

theorem lastOf_cons_some (w : String) (rest : List String) :
    ∃ u, lastOf (w :: rest) = some u := by
  induction rest generalizing w with
  | nil => exact ⟨w, rfl⟩
  | cons x tl ih => exact ih x

theorem lastOf_cons_eq (v : String) (l : List String) :
    lastOf (v :: l) =
      (match lastOf l with
       | none => some v
       | some u => some u) := by
  cases l with
  | nil => rfl
  | cons w rest =>
    obtain ⟨u, hu⟩ := lastOf_cons_some w rest
    rw [show lastOf (v :: w :: rest) = lastOf (w :: rest) from rfl, hu]

/-- Shape of the id property after the first collection pass: the last
truthy d value wins; with no d tag the initial value is kept. -/
theorem collect_id_last (tags : List (List String)) :
    ∀ st : JObj × List String × List String,
      objGet ((tags.foldl collectStep st).1) "id" =
        (match lastOf (dValues tags) with
         | some v => some (.str v)
         | none => objGet st.1 "id") := by
  induction tags with
  | nil => intro st; rfl
  | cons t rest ih =>
    intro st
    rw [List.foldl_cons, ih (collectStep st t)]
    rcases t with _ | ⟨k0, _ | ⟨v0, vrest⟩⟩
    · rw [show collectStep st [] = st from rfl,
        show dValues ([] :: rest) = dValues rest from rfl]
    · rw [show collectStep st [k0] = st from rfl,
        show dValues ([k0] :: rest) = dValues rest from rfl]
    · have h1 : ¬(vrest.length + 1 + 1 < 2) := by omega
      by_cases h2 : k0 = ""
      · have hs : collectStep st (k0 :: v0 :: vrest) = st := by
          simp [collectStep, h1, h2]
        have hd : dValues ((k0 :: v0 :: vrest) :: rest) = dValues rest := by
          simp [dValues, List.filterMap_cons, h1, h2]
        rw [hs, hd]
      · by_cases h3 : k0 = "d" ∧ v0 ≠ ""
        · have hs : (collectStep st (k0 :: v0 :: vrest)).1 =
              objSet st.1 "id" (.str v0) := by
            simp [collectStep, h1, h2, h3.1, h3.2]
          have hd : dValues ((k0 :: v0 :: vrest) :: rest) =
              v0 :: dValues rest := by
            simp [dValues, List.filterMap_cons, h1, h3.1, h3.2]
          rw [hs, hd, lastOf_cons_eq]
          cases hl : lastOf (dValues rest) with
          | none => simp [objGet_objSet_self]
          | some u => simp
        · have hs : (collectStep st (k0 :: v0 :: vrest)).1 = st.1 := by
            by_cases h4 : k0 = "t" ∧ v0 ≠ ""
            · simp [collectStep, h1, h2, h4.1, h4.2]
            · have hd2 : ¬(k0 = "d" ∧ ¬v0 = "") := by simpa using h3
              have ht2 : ¬(k0 = "t" ∧ ¬v0 = "") := by simpa using h4
              simp [collectStep, h1, h2, hd2, ht2]
          have hd : dValues ((k0 :: v0 :: vrest) :: rest) = dValues rest := by
            simp [dValues, List.filterMap_cons, h1, h3]
          rw [hs, hd]

/-- Group keys registered by the first pass come from tag keys. -/
theorem collect_gks_sub (tags : List (List String)) :
    ∀ st : JObj × List String × List String,
      ∀ k ∈ (tags.foldl collectStep st).2.2,
        k ∈ st.2.2 ∨ ∃ t ∈ tags, k = t.headD "" := by
  induction tags with
  | nil => intro st k hk; exact Or.inl hk
  | cons t rest ih =>
    intro st k hk
    rw [List.foldl_cons] at hk
    rcases ih (collectStep st t) k hk with h | ⟨t2, ht2, he⟩
    · have hstep : k ∈ st.2.2 ∨ k = t.headD "" := by
        rcases t with _ | ⟨k0, _ | ⟨v0, vrest⟩⟩
        · exact Or.inl h
        · exact Or.inl h
        · have h1 : ¬(vrest.length + 1 + 1 < 2) := by omega
          by_cases h2 : k0 = ""
          · rw [show collectStep st (k0 :: v0 :: vrest) = st from by
              simp [collectStep, h1, h2]] at h
            exact Or.inl h
          · by_cases h3 : k0 = "d" ∧ v0 ≠ ""
            · rw [show (collectStep st (k0 :: v0 :: vrest)).2.2 = st.2.2 from by
                simp [collectStep, h1, h2, h3.1, h3.2]] at h
              exact Or.inl h
            · by_cases h4 : k0 = "t" ∧ v0 ≠ ""
              · rw [show (collectStep st (k0 :: v0 :: vrest)).2.2 = st.2.2 from by
                  simp [collectStep, h1, h2, h3, h4.1, h4.2]] at h
                exact Or.inl h
              · have hgk : (collectStep st (k0 :: v0 :: vrest)).2.2 =
                    addKey k0 st.2.2 := by
                  have hd2 : ¬(k0 = "d" ∧ ¬v0 = "") := by simpa using h3
                  have ht2 : ¬(k0 = "t" ∧ ¬v0 = "") := by simpa using h4
                  simp [collectStep, h1, h2, hd2, ht2]
                rw [hgk] at h
                by_cases h5 : k0 ∈ st.2.2
                · rw [show addKey k0 st.2.2 = st.2.2 from by
                    simp [addKey, h5]] at h
                  exact Or.inl h
                · rw [show addKey k0 st.2.2 = st.2.2 ++ [k0] from by
                    simp [addKey, h5]] at h
                  rcases List.mem_append.mp h with h6 | h6
                  · exact Or.inl h6
                  · simp only [List.mem_singleton] at h6
                    exact Or.inr (by simp [h6])
      rcases hstep with h6 | h6
      · exact Or.inl h6
      · exact Or.inr ⟨t, by simp, h6⟩
    · exact Or.inr ⟨t2, by simp [ht2], he⟩

/-- The second phase never writes the id property when no group key has
base segment id. -/
theorem processGroups_id_preserved (tags : List (List String)) :
    ∀ (gkeys processed : List String) (res out : JObj),
      (∀ k ∈ gkeys, ((jsSplit ':' k).headD "") ≠ "id") →
      processGroups tags gkeys processed res = .ok out →
      objGet out "id" = objGet res "id" := by
  intro gkeys
  induction gkeys with
  | nil =>
    intro processed res out h hp
    simp only [processGroups] at hp
    cases hp
    rfl
  | cons key rest ih =>
    intro processed res out h hp
    simp only [processGroups] at hp
    by_cases h1 : key ∈ processed
    · rw [if_pos h1] at hp
      exact ih processed res out (fun k hk => h k (by simp [hk])) hp
    · rw [if_neg h1] at hp
      by_cases h2 : (jsSplit ':' key).headD "" = ""
      · rw [if_pos h2] at hp
        exact ih _ res out (fun k hk => h k (by simp [hk])) hp
      · rw [if_neg h2] at hp
        cases hr : reconstructProperty ((jsSplit ':' key).headD "")
            (relatedOf tags key ((jsSplit ':' key).headD "")) with
        | error u => rw [hr] at hp; cases hp
        | ok v =>
          rw [hr] at hp
          have := ih _ _ out (fun k hk => h k (by simp [hk])) hp
          rw [this]
          exact objGet_objSet_ne res _ "id" _ (fun he => h key (by simp) he.symm)

/-- C4 (amended): when the unflattener succeeds on an event whose tags
carry two or more d tags with non-empty values (and no tag whose base key
segment is id, which would overwrite the field), the reconstructed id is
the value of the LAST such d tag: a later occurrence overwrites an
earlier one. -/
theorem c4_last_d_wins (e : NostrEvent) (lang : Option String)
    (hd : 2 ≤ (dValues e.tags).length)
    (hno : ∀ t ∈ e.tags, ((jsSplit ':' (t.headD "")).headD "") ≠ "id")
    (amb : JObj) (w : List String)
    (hok : nostrToAmb e lang = .ok amb w) :
    objGet amb "id" = (lastOf (dValues e.tags)).map JVal.str := by
  by_cases hk : e.kind = 30142
  · cases hu : unflattenTags e.tags (resolveLanguage lang) with
    | error u => simp [nostrToAmb, hk, hu] at hok
    | ok amb0 =>
      cases hid2 : fieldTruthy amb0 "id" <;>
        cases hnm2 : fieldTruthy amb0 "name" <;>
          cases hty2 : typeFieldOk amb0 <;>
            simp [nostrToAmb, hk, hu, hid2, hnm2, hty2] at hok
      obtain ⟨ha, -⟩ := hok
      subst ha
      simp only [unflattenTags] at hu
      have hgk : ∀ k ∈ (e.tags.foldl collectStep
          (initResult (resolveLanguage lang), [], [])).2.2,
          ((jsSplit ':' k).headD "") ≠ "id" := by
        intro k hkk
        rcases collect_gks_sub e.tags _ k hkk with h | ⟨t, ht, he⟩
        · simp at h
        · rw [he]
          exact hno t ht
      have hpres := processGroups_id_preserved e.tags _ _ _ amb0 hgk hu
      rw [hpres]
      have hmid : objGet (if (e.tags.foldl collectStep
            (initResult (resolveLanguage lang), [], [])).2.1.isEmpty = true then
            (e.tags.foldl collectStep
              (initResult (resolveLanguage lang), [], [])).1
          else objSet (e.tags.foldl collectStep
              (initResult (resolveLanguage lang), [], [])).1 "keywords"
            (.arr ((e.tags.foldl collectStep
              (initResult (resolveLanguage lang), [], [])).2.1.map JVal.str)))
          "id" = objGet (e.tags.foldl collectStep
            (initResult (resolveLanguage lang), [], [])).1 "id" := by
        split_ifs with hsw
        · rfl
        · exact objGet_objSet_ne _ _ "id" _ (by decide)
      rw [hmid, collect_id_last e.tags _]
      have hne : dValues e.tags ≠ [] := by
        intro hc
        rw [hc] at hd
        simp at hd
      cases hdv : dValues e.tags with
      | nil => exact absurd hdv hne
      | cons a tl =>
        obtain ⟨u, hu2⟩ := lastOf_cons_some a tl
        rw [hu2]
        rfl
  · simp [nostrToAmb, hk] at hok

/-- Witness for C4 at the two-d-tag event. -/
theorem c4_witness :
    objGet c4amb "id" = (lastOf (dValues c4ev.tags)).map JVal.str :=
  c4_last_d_wins c4ev none (by decide) (by decide) c4amb [] rfl

/-- Counterexample for C4 as stated: with d tags a then b, the
reconstructed id is b (the last), not a (the first). -/
theorem c4_counterexample :
    resultField (nostrToAmb c4ev none) "id" = some (.str "b") ∧
    some (JVal.str "b") ≠ some (JVal.str "a") :=
  ⟨rfl, by simp⟩

end AmbNostr
